import Mathlib

/-!
Verification development for the SARIF transformation and location-remapping
pipeline of the shiftleft-scan-vscode extension.

The TypeScript sources are shallowly embedded as Lean definitions:

* JavaScript strings are modelled by Lean `String` (and, where character-level
  algorithms such as `split`/`parseInt` are involved, by `List Char`);
* JavaScript numbers appearing in the pipeline are integers and are modelled
  by `Int` (or `Nat` where the source only ever produces naturals); the value
  `NaN` produced by `parseInt` is modelled by `none : Option Int`;
* `undefined`-able values are modelled by `Option`;
* thrown exceptions (`throw new Error`, `TypeError` on property access of
  `undefined`) are modelled by `Except String`;
* host-editor objects (`vscode.Uri`, the `FileMapper`, markdown rendering)
  are integration glue declared out of scope by the specification; URIs are
  modelled as plain strings and the two host-dependent functions used by the
  code-flow/location factories (`LocationFactory.create`, which performs
  interactive file resolution, and `Utilities.parseSarifMessage`, which
  renders markdown) are abstracted as parameters of the embedding;
* the mutable collections (`runInfoCollection`, `sarifJSONMapping`) are
  modelled by explicit state passing over association lists.
-/

namespace SarifModel

/-- Model of `vscode.DiagnosticSeverity`. -/
inductive DiagnosticSeverity where
  | Error
  | Warning
  | Information
  | Hint
deriving DecidableEq

/-- The numeric value of each `vscode.DiagnosticSeverity` enum member, as
declared by the vscode API (`Error = 0`, `Warning = 1`, `Information = 2`,
`Hint = 3`).  JavaScript truthiness of an enum member is truthiness of this
number. -/
def DiagnosticSeverity.value : DiagnosticSeverity → Nat
  | .Error => 0
  | .Warning => 1
  | .Information => 2
  | .Hint => 3

/-- JavaScript `x || y` where `x` is a possibly-`undefined` enum member:
`undefined` and the numeric value `0` are falsy. -/
def jsOrSeverity (x : Option DiagnosticSeverity) (y : DiagnosticSeverity) :
    DiagnosticSeverity :=
  match x with
  | some v => if v.value = 0 then y else v
  | none => y

/-- JavaScript `x || y` for possibly-`undefined` strings: `undefined` and the
empty string are falsy. -/
def jsOrString (x : Option String) (y : String) : String :=
  match x with
  | some s => if s = "" then y else s
  | none => y

/-- JavaScript truthiness of a possibly-`undefined` string. -/
def jsTruthyString : Option String → Bool
  | some s => s != ""
  | none => false

/-- `sarifLevelToVsCodeSeverityMap` from `SVDiagnosticFactory.ts`.  SARIF
result levels are strings at runtime, so the key type is modelled as
`String`. -/
def sarifLevelToVsCodeSeverityMap : List (String × DiagnosticSeverity) :=
  [("error", .Error),
   ("none", .Information),
   ("note", .Information),
   ("warning", .Warning)]

/-- `Map.prototype.get`: the value at the first matching key, or
`undefined`. -/
def mapGet {α : Type} (m : List (String × α)) (key : String) : Option α :=
  (m.find? (fun p => p.1 = key)).map (fun p => p.2)

namespace SVDiagnosticFactory

/-- `SVDiagnosticFactory.getSeverity`: translates a SARIF result level to a
`DiagnosticSeverity` via
`sarifLevelToVsCodeSeverityMap.get(level) || DiagnosticSeverity.Warning`. -/
def getSeverity (level : String) : DiagnosticSeverity :=
  jsOrSeverity (mapGet sarifLevelToVsCodeSeverityMap level) .Warning

end SVDiagnosticFactory

/-- Model of `vscode.Range` restricted to its four defining numbers, in
constructor order `(startLine, startCharacter, endLine, endCharacter)`.  The
host type's validation behaviour is out of scope. -/
structure Range where
  startLine : Int
  startCharacter : Int
  endLine : Int
  endCharacter : Int
deriving DecidableEq

/-- `sarif.ArtifactRegion` snippet (`artifactContent`): optional rendered
text and optional base64-encoded binary content. -/
structure SarifSnippet where
  text : Option String
  binary : Option String
deriving DecidableEq

/-- `sarif.Region`: the optional line/column and char-offset fields read by
`LocationFactory.parseRange`. -/
structure SarifRegion where
  startLine : Option Int
  startColumn : Option Int
  endLine : Option Int
  endColumn : Option Int
  charOffset : Option Int
  charLength : Option Int
  snippet : Option SarifSnippet
deriving DecidableEq

/-- Result type of `LocationFactory.parseRange`. -/
structure ParsedRange where
  range : Range
  endOfLine : Bool
deriving DecidableEq

namespace LocationFactory

/-- `LocationFactory.parseRange` from the location factory.  The parameter
`base64DecodedLength` abstracts the Node host expression
`Buffer.from(snippet.binary, "base64").toString().length`, and the `.length`
of a snippet's text is taken on the Lean string.  The TypeScript parameter is
checked against `undefined` inside the body, hence the `Option` input. -/
def parseRange (base64DecodedLength : String → Int)
    (region : Option SarifRegion) : ParsedRange :=
  Id.run do
  let mut startline : Int := 0
  let mut startcol : Int := 0
  let mut endline : Int := 0
  let mut endcol : Int := 1
  let mut eol : Bool := false
  if let some r := region then
    if let some sl := r.startLine then
      startline := sl - 1
      if let some sc := r.startColumn then
        startcol := sc - 1
      match r.endLine with
      | some el => endline := el - 1
      | none => endline := startline
      match r.endColumn with
      | some ec => endcol := ec - 1
      | none =>
        match r.snippet with
        | some snip =>
          match snip.text with
          | some t => endcol := (t.length : Int) - 2
          | none =>
            match snip.binary with
            | some b => endcol := base64DecodedLength b
            | none => pure ()
        | none =>
          endline := endline + 1
          endcol := 0
          eol := true
    else if let some co := r.charOffset then
      startline := 0
      startcol := co
      match r.charLength with
      | some cl => endcol := cl + co
      | none => endcol := startcol
  return { range := ⟨startline, startcol, endline, endcol⟩, endOfLine := eol }

end LocationFactory

/-- `sarif.ArtifactLocation`: the fields read by the base-URI expander and
the location factories. -/
structure SarifArtifactLocation where
  uri : Option String
  uriBaseId : Option String
deriving DecidableEq

namespace Utilities

/-- `Utilities.joinPath`: joins two paths, inserting exactly one `/` between
the segments. -/
def joinPath (start e : String) : String :=
  let joined := if start != "" && !(start.endsWith "/") then start ++ "/" else start
  if e.startsWith "/" then joined ++ e.drop 1 else joined ++ e

/-- `Utilities.expandBaseId`: recursively expands the nested base ids of one
base id.  The TypeScript is direct recursion with no cycle guard; the `Nat`
argument is recursion-depth fuel added by the embedding, with `none` meaning
the computation did not complete within the given depth — so a result of
`none` for every fuel models non-termination (in Node, a stack overflow).
A `some (Except.error _)` result models a thrown `TypeError` (property read
`baseIds[id].uri` on `undefined` when the id is absent). -/
def expandBaseId :
    Nat → List (String × SarifArtifactLocation) → String →
    Option (Except String String)
  | 0, _, _ => none
  | fuel + 1, baseIds, id =>
    let artifactLocation := mapGet baseIds id
    let baseResult : Option (Except String String) :=
      match artifactLocation with
      | some al =>
        match al.uriBaseId with
        | some parentId => expandBaseId fuel baseIds parentId
        | none => some (Except.ok "")
      | none => some (Except.ok "")
    match baseResult with
    | none => none
    | some (Except.error e) => some (Except.error e)
    | some (Except.ok base) =>
      match artifactLocation with
      | none => some (Except.error "TypeError: cannot read uri of undefined")
      | some al => some (Except.ok (joinPath base (jsOrString al.uri id)))

/-- The loop body of `Utilities.expandBaseIds` over the dictionary's own
keys, sequentially expanding each id; a thrown error or a non-terminating
expansion of any id preempts the rest, as in the source. -/
def expandBaseIdsGo (fuel : Nat) (baseIds : List (String × SarifArtifactLocation)) :
    List (String × SarifArtifactLocation) →
    Option (Except String (List (String × String)))
  | [] => some (Except.ok [])
  | (id, _) :: rest =>
    match expandBaseId fuel baseIds id with
    | none => none
    | some (Except.error e) => some (Except.error e)
    | some (Except.ok v) =>
      match expandBaseIdsGo fuel baseIds rest with
      | none => none
      | some (Except.error e) => some (Except.error e)
      | some (Except.ok vs) => some (Except.ok ((id, v) :: vs))

/-- `Utilities.expandBaseIds`: expands every id of the optional dictionary
of base ids into a flat dictionary; an absent dictionary yields `undefined`
(the inner `none`).  The outer `Option` is the embedding's fuel marker as in
`expandBaseId`. -/
def expandBaseIds (fuel : Nat)
    (baseIds : Option (List (String × SarifArtifactLocation))) :
    Option (Except String (Option (List (String × String)))) :=
  match baseIds with
  | none => some (Except.ok none)
  | some b =>
    match expandBaseIdsGo fuel b b with
    | none => none
    | some (Except.error e) => some (Except.error e)
    | some (Except.ok vs) => some (Except.ok (some vs))

/-- A dictionary with a single self-referential base id, as in
`{"A": {"uriBaseId": "A"}}`. -/
def selfReferentialBaseIds : List (String × SarifArtifactLocation) :=
  [("A", { uri := none, uriBaseId := some "A" })]

end Utilities

/-- JavaScript `String.prototype.split` with a single-character separator,
over strings modelled as character lists: `"".split(sep)` is `[""]`, and each
occurrence of the separator starts a new (possibly empty) segment. -/
def splitOnChar (sep : Char) : List Char → List (List Char)
  | [] => [[]]
  | c :: cs =>
    let r := splitOnChar sep cs
    if c = sep then [] :: r
    else
      match r with
      | [] => [[c]]
      | h :: t => (c :: h) :: t

/-- The decimal digit characters used by number-to-string conversion. -/
def digitChar : Nat → Char
  | 0 => '0'
  | 1 => '1'
  | 2 => '2'
  | 3 => '3'
  | 4 => '4'
  | 5 => '5'
  | 6 => '6'
  | 7 => '7'
  | 8 => '8'
  | _ => '9'

/-- Decimal representation of a natural number as a character list, as
produced by JavaScript template literals and `toString` for array
indices. -/
def natToDec (n : Nat) : List Char :=
  if _h : n < 10 then [digitChar n]
  else natToDec (n / 10) ++ [digitChar (n % 10)]
decreasing_by
  exact Nat.div_lt_self (by omega) (by omega)

/-- Accumulates the numeric value of a list of decimal digit characters. -/
def digitsToNat (ds : List Char) : Nat :=
  ds.foldl (fun acc c => acc * 10 + (c.toNat - '0'.toNat)) 0

/-- ASCII whitespace skipped by `parseInt`. -/
def jsWhitespace (c : Char) : Bool :=
  c == ' ' || c == '\t' || c == '\n' || c == '\r'

/-- The maximal decimal-digit prefix of a string, as a number; `none` models
`NaN` when there is no digit. -/
def parseDigits (s : List Char) : Option Nat :=
  let ds := s.takeWhile Char.isDigit
  if ds = [] then none else some (digitsToNat ds)

/-- JavaScript `parseInt(s, 10)`: skip leading whitespace, read an optional
sign and then the maximal run of decimal digits; `NaN` (modelled `none`) when
no digit follows. -/
def jsParseInt (s : List Char) : Option Int :=
  match s.dropWhile jsWhitespace with
  | [] => none
  | c :: rest =>
    if c = '-' then (parseDigits rest).map (fun n => -(n : Int))
    else if c = '+' then (parseDigits rest).map (fun n => (n : Int))
    else (parseDigits (c :: rest)).map (fun n => (n : Int))

/-- `CodeFlowStepId` from the interfaces: the three numeric components of a
traversal id.  The components are `parseInt` results, so `NaN` is modelled by
`none`. -/
structure CodeFlowStepId where
  cFId : Option Int
  tFId : Option Int
  stepId : Option Int
deriving DecidableEq

namespace CodeFlowFactory

/-- `CodeFlowFactory.parseCodeFlowId`: parses a text traversal id such as
`1_1_2`; the placeholder `-1` and any text that does not split on `_` into
exactly three segments give `undefined`. -/
def parseCodeFlowId (idText : List Char) : Option CodeFlowStepId :=
  if idText = ['-', '1'] then none
  else
    match splitOnChar '_' idText with
    | [s0, s1, s2] =>
      some { cFId := jsParseInt s0, stepId := jsParseInt s2, tFId := jsParseInt s1 }
    | _ => none

end CodeFlowFactory

/-- Processed `Message` from the interfaces: plain text and rendered html
variants. -/
structure Message where
  text : Option String
  html : Option String
deriving DecidableEq

/-- `sarif.Message`: raw message object with text and markdown variants.
The `arguments` placeholder substitution happens inside the out-of-scope
markdown renderer abstraction. -/
structure SarifMessage where
  text : Option String
  markdown : Option String
deriving DecidableEq

/-- `sarif.PhysicalLocation`: the fields read by the factories. -/
structure SarifPhysicalLocation where
  artifactLocation : Option SarifArtifactLocation
  region : Option SarifRegion
deriving DecidableEq

/-- `sarif.Location`: the fields read by the factories.  Logical locations
are display glue and omitted. -/
structure SarifLocation where
  id : Option Int
  physicalLocation : Option SarifPhysicalLocation
  message : Option SarifMessage
deriving DecidableEq

/-- Processed `Location` from the interfaces.  URIs are modelled as strings;
the `toJSON` serializer is display glue and omitted. -/
structure Location where
  id : Option Int
  uri : Option String
  uriBase : Option String
  mapped : Bool
  range : Range
  endOfLine : Option Bool
  fileName : Option String
  message : Option Message
deriving DecidableEq

/-- Model of `vscode.Command` as attached to a code-flow step's code lens. -/
structure Command where
  arguments : List String
  command : String
  title : String
deriving DecidableEq

/-- `sendCFSelectionToExplorerCommand` from `CodeFlowDecorations.ts`. -/
def sendCFSelectionToExplorerCommand : String :=
  "extension.shiftleft.SendCFSelectionToExplorer"

/-- `sarif.ThreadFlowLocation`: the fields read by the code-flow factory.
The opaque pass-through `state` property is omitted. -/
structure SarifThreadFlowLocation where
  index : Option Nat
  nestingLevel : Option Int
  importance : Option String
  location : Option SarifLocation
  executionOrder : Option Int
deriving DecidableEq

/-- `sarif.ThreadFlow`: the fields read by the code-flow factory. -/
structure SarifThreadFlow where
  id : Option String
  message : Option SarifMessage
  locations : List SarifThreadFlowLocation
deriving DecidableEq

/-- Processed `CodeFlowStep` from the interfaces.  The opaque pass-through
`state` property is omitted. -/
structure CodeFlowStep where
  beforeIcon : Option String
  codeLensCommand : Command
  importance : String
  isLastChild : Bool
  isParent : Bool
  location : Option Location
  message : String
  messageWithStep : String
  nestingLevel : Int
  stepId : Option Int
  traversalId : String
deriving DecidableEq

/-- Processed `ThreadFlow` from the interfaces. -/
structure ThreadFlow where
  id : Option String
  lvlsFirstStepIsNested : Int
  message : Option String
  steps : List CodeFlowStep
deriving DecidableEq

/-- The host-dependent collaborators of the code-flow factory:
`LocationFactory.create` (suspends on the interactive `FileMapper`),
`Utilities.parseSarifMessage` (markdown rendering), and
`Utilities.IconsPath` (extension installation path).  All three are
integration glue declared out of scope by the specification, so the
embedding abstracts them as parameters. -/
structure CodeFlowEnv where
  locationCreate : SarifLocation → Location
  parseSarifMessage : Option SarifMessage → Message
  iconsPath : String

/-- JavaScript `a < b` on possibly-`undefined` numbers: any comparison with
`undefined` is false. -/
def jsLtNum : Option Int → Option Int → Bool
  | some a, some b => a < b
  | _, _ => false

/-- JavaScript `a > b` on possibly-`undefined` numbers: any comparison with
`undefined` is false. -/
def jsGtNum : Option Int → Option Int → Bool
  | some a, some b => b < a
  | _, _ => false

namespace CodeFlowFactory

/-- Key format of the module-level `threadFlowLocations` lookup map,
`runId_index`, as written by `mapThreadFlowLocationsFromRun`. -/
def threadFlowLocKey (runId : Nat) (index : Nat) : String :=
  toString runId ++ "_" ++ toString index

/-- The indirection-resolution block that `createCodeFlowStep` performs
inline on both the current and the next thread-flow location: when the
location carries an `index`, look it up in the run-level
`threadFlowLocations` map and substitute the found object. -/
def resolveTFLoc (tflMap : List (String × SarifThreadFlowLocation))
    (runId : Nat) (tfl : SarifThreadFlowLocation) : SarifThreadFlowLocation :=
  match tfl.index with
  | some i =>
    match mapGet tflMap (threadFlowLocKey runId i) with
    | some lookedUpLoc => lookedUpLoc
    | none => tfl
  | none => tfl

/-- `CodeFlowFactory.createCodeFlowStep`: builds one processed step from a
thread-flow location and its successor (the successor is `undefined` for the
last step).  The `isParent`/`isLastChild` comparison is transcribed exactly,
including the outer both-defined guard and the `undefined` tie-break
disjuncts inside it. -/
def createCodeFlowStep (env : CodeFlowEnv)
    (tflMap : List (String × SarifThreadFlowLocation)) (runId : Nat)
    (tFLocOrig : SarifThreadFlowLocation)
    (nextTFLocOrig : Option SarifThreadFlowLocation)
    (indexId : String) (stepNumber : Nat) : CodeFlowStep :=
  let tFLoc := resolveTFLoc tflMap runId tFLocOrig
  let flags : Bool × Bool :=
    match nextTFLocOrig with
    | none => (false, false)
    | some nextOrig =>
      let nextTFLoc := resolveTFLoc tflMap runId nextOrig
      if tFLoc.nestingLevel.isSome && nextTFLoc.nestingLevel.isSome then
        if jsLtNum tFLoc.nestingLevel nextTFLoc.nestingLevel ||
            (tFLoc.nestingLevel.isNone && nextTFLoc.nestingLevel.isSome) then
          (true, false)
        else if jsGtNum tFLoc.nestingLevel nextTFLoc.nestingLevel ||
            (tFLoc.nestingLevel.isSome && nextTFLoc.nestingLevel.isNone) then
          (false, true)
        else (false, false)
      else (false, false)
  let isParentFlag := flags.1
  let isLastChildFlag := flags.2
  let locAndMsg : Option Location × Option Message :=
    match tFLoc.location with
    | some l => (some (env.locationCreate l), some (env.parseSarifMessage l.message))
    | none => (none, none)
  let messageText : String :=
    match locAndMsg.2 with
    | some m =>
      match m.text with
      | some t => t
      | none => if isLastChildFlag then "[return call]" else "[no description]"
    | none => if isLastChildFlag then "[return call]" else "[no description]"
  let messageWithStepText : String :=
    "Step " ++ toString stepNumber ++ ": " ++ messageText
  let command : Command :=
    { arguments := [indexId],
      command := sendCFSelectionToExplorerCommand,
      title := messageWithStepText }
  let nestingLevelValue : Int :=
    match tFLoc.nestingLevel with
    | none => -1
    | some v => v
  { beforeIcon := none,
    codeLensCommand := command,
    importance := jsOrString tFLoc.importance "important",
    isLastChild := isLastChildFlag,
    isParent := isParentFlag,
    location := locAndMsg.1,
    message := messageText,
    messageWithStep := messageWithStepText,
    nestingLevel := nestingLevelValue,
    stepId := tFLoc.executionOrder,
    traversalId := indexId }

/-- `CodeFlowFactory.getBeforeIcon`: chooses the call/return icon of a step
by scanning forward (parents) or backward (last children) through the
thread's steps.  The source always calls it with an in-range index; an
out-of-range index is mapped to no icon. -/
def getBeforeIcon (env : CodeFlowEnv) (index : Nat) (threadFlow : ThreadFlow) :
    Option String :=
  match threadFlow.steps[index]? with
  | none => none
  | some step =>
    let iconName : Option String :=
      if step.isParent then
        some (if (threadFlow.steps.drop (index + 1)).any
            (fun s => s.nestingLevel ≤ step.nestingLevel) then
          "call-with-return.svg"
        else "call-no-return.svg")
      else if step.isLastChild then
        some (if step.nestingLevel ≠ -1 &&
            (threadFlow.steps.take index).any
              (fun s => s.nestingLevel < step.nestingLevel) then
          "return-with-call.svg"
        else "return-no-call.svg")
      else none
    iconName.map (fun n => env.iconsPath ++ n)

/-- `CodeFlowFactory.getLevelsFirstStepIsNested`: the synthetic indent count
of the thread's first step, from its nesting level and the thread-wide
undefined/zero nesting-level flags. -/
def getLevelsFirstStepIsNested (step : CodeFlowStep)
    (hasUndefinedNL hasZeroNL : Bool) : Int :=
  let firstNestingLevel := step.nestingLevel
  if firstNestingLevel = -1 then 0
  else if firstNestingLevel = 0 then (if hasUndefinedNL then 1 else 0)
  else
    (if hasUndefinedNL then (1 : Int) else 0) +
      (if hasZeroNL then (1 : Int) else 0) + (firstNestingLevel - 1)

/-- The step-construction loop of `createThreadFlow`: one step per
thread-flow location, each passed its successor location (`undefined` for
the last), the traversal id `indexId_index`, and the 1-based step number. -/
def buildSteps (env : CodeFlowEnv)
    (tflMap : List (String × SarifThreadFlowLocation)) (runId : Nat)
    (indexId : String) : Nat → List SarifThreadFlowLocation → List CodeFlowStep
  | _, [] => []
  | index, loc :: rest =>
    createCodeFlowStep env tflMap runId loc rest.head?
        (indexId ++ "_" ++ toString index) (index + 1)
      :: buildSteps env tflMap runId indexId (index + 1) rest

/-- `CodeFlowFactory.createThreadFlow`: builds the processed thread flow,
then in a second pass assigns each step's `beforeIcon` and computes the
undefined/zero nesting-level flags, and finally reads `steps[0]` to compute
`lvlsFirstStepIsNested` — a read of `undefined` (modelled `Except.error`)
when the locations array is empty. -/
def createThreadFlow (env : CodeFlowEnv)
    (tflMap : List (String × SarifThreadFlowLocation)) (runId : Nat)
    (sarifTF : SarifThreadFlow) (indexId : String) : Except String ThreadFlow :=
  let message : Option String :=
    match sarifTF.message with
    | some m => (env.parseSarifMessage (some m)).text
    | none => none
  let steps0 := buildSteps env tflMap runId indexId 0 sarifTF.locations
  let tfTemp : ThreadFlow :=
    { id := sarifTF.id, lvlsFirstStepIsNested := 0, message := message,
      steps := steps0 }
  let steps1 := steps0.mapIdx
    (fun index s => { s with beforeIcon := getBeforeIcon env index tfTemp })
  let hasUndefinedNestingLevel := steps0.any (fun s => s.nestingLevel = -1)
  let hasZeroNestingLevel := steps0.any (fun s => s.nestingLevel = 0)
  match steps1 with
  | [] => Except.error "TypeError: cannot read nestingLevel of undefined"
  | s0 :: _ =>
    Except.ok
      { id := sarifTF.id,
        lvlsFirstStepIsNested :=
          getLevelsFirstStepIsNested s0 hasUndefinedNestingLevel
            hasZeroNestingLevel,
        message := message,
        steps := steps1 }

end CodeFlowFactory

/-- `RunInfo` from the interfaces, restricted to the fields the diagnostic
collection and diagnostic factory read: the manufactured numeric id, the
tool name, and the originating SARIF file path. -/
structure RunInfo where
  id : Nat
  toolName : Option String
  sarifFileFullPath : String
deriving DecidableEq

/-- `sarif.Result`: the fields read by the diagnostic and location
factories. -/
structure SarifResult where
  locations : Option (List SarifLocation)
  analysisTarget : Option SarifArtifactLocation
deriving DecidableEq

/-- `ResultInfo` from the interfaces, restricted to the fields read by
`SVDiagnosticFactory.create`, `updateMessage` and the diagnostic
collection. -/
structure ResultInfo where
  id : Nat
  runId : Nat
  runInfo : RunInfo
  assignedLocation : Option Location
  message : Message
  severityLevel : String
  ruleId : Option String
deriving DecidableEq

/-- Model of `vscode.Diagnostic`: the fields the pipeline sets. -/
structure VsDiagnostic where
  range : Range
  message : String
  severity : DiagnosticSeverity
  code : Option String
  source : Option String
deriving DecidableEq

/-- `SarifViewerVsCodeDiagnostic`: a `vscode.Diagnostic` subclass carrying
the run, the processed result and the raw SARIF result.  The subclass
relation is modelled by the `base` field. -/
structure SVDiagnostic where
  base : VsDiagnostic
  runInfo : RunInfo
  resultInfo : ResultInfo
  rawResult : SarifResult
deriving DecidableEq

namespace SVDiagnosticFactory

/-- The message of the error thrown by `SVDiagnosticFactory.create`. -/
def createErrorMessage : String :=
  "Cannot represent a diagnostic without a range in the document and the diagnostic text to display to the user."

/-- `SVDiagnosticFactory.updateMessage`: the final diagnostic message,
prefixed with `[Unmapped] ` whenever the assigned location is absent or
unmapped. -/
def updateMessage (resultInfo : ResultInfo) : String :=
  let message := jsOrString resultInfo.message.text ""
  match resultInfo.assignedLocation with
  | none => "[Unmapped] " ++ message
  | some assignedLocation =>
    if assignedLocation.mapped then message else "[Unmapped] " ++ message

/-- `SVDiagnosticFactory.create`: throws when
`!resultInfo.assignedLocation || !resultInfo.message.text` (absent location,
or absent or empty message text — both falsy in JavaScript); otherwise
builds the diagnostic from the assigned location's range, the severity
lookup, the rule id and the tool name. -/
def create (runInfo : RunInfo) (resultInfo : ResultInfo)
    (rawResult : SarifResult) : Except String SVDiagnostic :=
  match resultInfo.assignedLocation, resultInfo.message.text with
  | some assignedLocation, some text =>
    if text = "" then Except.error createErrorMessage
    else
      Except.ok
        { base :=
            { range := assignedLocation.range,
              message := updateMessage resultInfo,
              severity := getSeverity resultInfo.severityLevel,
              code := resultInfo.ruleId,
              source := some (jsOrString resultInfo.runInfo.toolName "Unknown tool") },
          runInfo := runInfo,
          resultInfo := resultInfo,
          rawResult := rawResult }
  | _, _ => Except.error createErrorMessage

end SVDiagnosticFactory

namespace SVDiagnosticCollection

/-- `SVDiagnosticCollection.addRunInfoAndCalculateId`: the manufactured id
is the last collected run's id plus one, or `0` for an empty collection; the
run is pushed and the id returned.  The caller (`LogReader.read`)
immediately assigns the returned id to the pushed run object, which the
embedding reflects by storing the run with its computed id. -/
def addRunInfoAndCalculateId (state : List RunInfo) (runInfo : RunInfo) :
    Nat × List RunInfo :=
  let runInfoIdentifier : Nat :=
    match state.getLast? with
    | some lastRun => lastRun.id + 1
    | none => 0
  (runInfoIdentifier, state ++ [{ runInfo with id := runInfoIdentifier }])

/-- `SVDiagnosticCollection.removeRuns` restricted to the run-info
collection: the backward splice loop removes exactly the runs whose
`sarifFileFullPath` equals the closed path.  The follow-up removal of those
runs' results and the display resync do not touch the run-info collection
and are omitted here. -/
def removeRuns (state : List RunInfo) (path : String) : List RunInfo :=
  state.filter (fun runInfo => runInfo.sarifFileFullPath ≠ path)

/-- One session-level operation on the run-info collection. -/
inductive DiagCollectionOp where
  | addRun (runInfo : RunInfo)
  | removeRuns (path : String)

/-- Runs a sequence of collection operations, returning the ids returned by
the `addRunInfoAndCalculateId` calls, in order, and the final collection. -/
def applyOps : List DiagCollectionOp → List RunInfo → List Nat × List RunInfo
  | [], state => ([], state)
  | DiagCollectionOp.addRun r :: rest, state =>
    let added := addRunInfoAndCalculateId state r
    let remaining := applyOps rest added.2
    (added.1 :: remaining.1, remaining.2)
  | DiagCollectionOp.removeRuns p :: rest, state =>
    applyOps rest (removeRuns state p)

/-- The run ids of the collection are strictly increasing along the
collection. -/
def IdsStrictlyIncreasing (state : List RunInfo) : Prop :=
  List.Pairwise (fun a b => a.id < b.id) state

/-- Along a sequence of operations, every id returned by an add call
strictly exceeds the id of every run present in the collection at the time
of that call. -/
def AddsExceedCurrentIds : List DiagCollectionOp → List RunInfo → Prop
  | [], _ => True
  | DiagCollectionOp.addRun r :: rest, state =>
    (∀ runInfo ∈ state, runInfo.id < (addRunInfoAndCalculateId state r).1) ∧
      AddsExceedCurrentIds rest (addRunInfoAndCalculateId state r).2
  | DiagCollectionOp.removeRuns p :: rest, state =>
    AddsExceedCurrentIds rest (removeRuns state p)

/-- The sentinel summary diagnostic synthesized by
`addToDiagnosticCollection` when a file's diagnostics exceed the display
cap. -/
def maxReachedDiagnostic (maxCap : Nat) (total : Nat) : VsDiagnostic :=
  { range := ⟨0, 0, 0, 0⟩,
    message := "Only displaying " ++ toString maxCap ++ " of the total\n                    " ++ toString total ++ " results in the SARIF log.",
    severity := DiagnosticSeverity.Error,
    code := some "SARIFReader",
    source := some "SARIFViewer" }

/-- The per-file body of `SVDiagnosticCollection.addToDiagnosticCollection`:
skip the file when the first issue has no assigned location or no URI
(`Except.ok none`, the `continue`); otherwise the displayed list is either
the issues themselves or, above the cap, the sentinel followed by the first
`maxCap` issues in insertion order.  The file key is the assigned location's
URI (the host path normalization of `getFsPathWithFragment` is out of
scope).  An empty issues list, never produced by `addToCollection`, would
read a property of `undefined`. -/
def addToDiagnosticCollectionEntry (maxCap : Nat) (issues : List SVDiagnostic) :
    Except String (Option (String × List VsDiagnostic)) :=
  match issues with
  | [] => Except.error "TypeError: cannot read resultInfo of undefined"
  | issue0 :: _ =>
    match issue0.resultInfo.assignedLocation with
    | none => Except.ok none
    | some assignedLocation =>
      match assignedLocation.uri with
      | none => Except.ok none
      | some key =>
        let diags : List VsDiagnostic :=
          if maxCap < issues.length then
            maxReachedDiagnostic maxCap issues.length ::
              (issues.take maxCap).map (fun issue => issue.base)
          else issues.map (fun issue => issue.base)
        Except.ok (some (key, diags))

/-- `SVDiagnosticCollection.addToDiagnosticCollection`: folds the per-file
body over the mapped or unmapped collection, producing the list of
(file key, displayed diagnostics) pairs handed to the problems panel. -/
def addToDiagnosticCollection (maxCap : Nat) :
    List (String × List SVDiagnostic) →
    Except String (List (String × List VsDiagnostic))
  | [] => Except.ok []
  | (_, issues) :: rest =>
    match addToDiagnosticCollectionEntry maxCap issues with
    | Except.error e => Except.error e
    | Except.ok none => addToDiagnosticCollection maxCap rest
    | Except.ok (some kv) =>
      match addToDiagnosticCollection maxCap rest with
      | Except.error e => Except.error e
      | Except.ok kvs => Except.ok (kv :: kvs)

end SVDiagnosticCollection

/-- A mapped location fixture used by concrete evaluations. -/
def sampleMappedLocation : Location :=
  { id := none, uri := some "file:///proj/a.c", uriBase := none, mapped := true,
    range := ⟨0, 0, 0, 1⟩, endOfLine := some false, fileName := some "a.c",
    message := none }

/-- A run-info fixture used by concrete evaluations. -/
def sampleRunInfo : RunInfo :=
  { id := 0, toolName := some "scan", sarifFileFullPath := "file:///log.sarif" }

/-- A mapped diagnostic fixture used by concrete evaluations. -/
def sampleDiagnostic : SVDiagnostic :=
  { base :=
      { range := ⟨0, 0, 0, 1⟩, message := "msg",
        severity := DiagnosticSeverity.Warning, code := none,
        source := some "scan" },
    runInfo := sampleRunInfo,
    resultInfo :=
      { id := 0, runId := 0, runInfo := sampleRunInfo,
        assignedLocation := some sampleMappedLocation,
        message := { text := some "msg", html := none },
        severityLevel := "warning", ruleId := none },
    rawResult := { locations := none, analysisTarget := none } }

/-- A line/column position recorded by the `json-source-map` parse. -/
structure Position where
  line : Nat
  column : Nat
deriving DecidableEq

/-- `JsonPointer` from the interfaces: the spans of a JSON value recorded at
parse time (the `key`/`keyEnd` spans are not read by the factories and are
omitted). -/
structure JsonPointer where
  value : Position
  valueEnd : Position
deriving DecidableEq

/-- `sarif.Run`: the fields read by `mapToSarifFileLocation`. -/
structure SarifRun where
  results : Option (List SarifResult)
deriving DecidableEq

/-- `sarif.Log`: the parsed data tree. -/
structure SarifLog where
  runs : List SarifRun
deriving DecidableEq

/-- `JsonMapping` from the interfaces: the parsed data tree plus the pointer
table keyed by JSON-Pointer path strings. -/
structure JsonMapping where
  data : SarifLog
  pointers : List (String × JsonPointer)
deriving DecidableEq

/-- In-place update of the value stored at a key of an association list:
the model of a JavaScript property assignment on the object found by key
lookup. -/
def updateAt {α : Type} (m : List (String × α)) (key : String) (g : α → α) :
    List (String × α) :=
  m.map (fun kv => if kv.1 = key then (kv.1, g kv.2) else kv)

/-- `fsPath.substring(fsPath.lastIndexOf("\\") + 1)`: the path component
after the last backslash. -/
def fileNameFromFsPath (s : String) : String :=
  (s.splitOn "\x5c").getLastD s

namespace LocationFactory

/-- `LocationFactory.createLocationOfMapping`: builds a `Location` pointing
into the raw SARIF text from the pointer table entry at `resultPath`.  With
the `insertionPtr` flag the source executes
`locationMapping.valueEnd = locationMapping.value` on the entry object
stored in the pointer table, which the embedding models as an update of the
state at that key; the state is returned alongside the result.  The
`sarifJSONMapping` map is keyed by `uri.toString()`, modelled as the URI
string itself.  A missing pointer-table entry makes the source read a
property of `undefined` (modelled `Except.error`); a missing mapping for the
URI returns `undefined`. -/
def createLocationOfMapping (state : List (String × JsonMapping))
    (sarifUriKey : String) (resultPath : String) (insertionPtr : Bool) :
    Except String (Option Location) × List (String × JsonMapping) :=
  match mapGet state sarifUriKey with
  | none => (Except.ok none, state)
  | some sarifMapping =>
    match mapGet sarifMapping.pointers resultPath with
    | none => (Except.error "TypeError: cannot read value of undefined", state)
    | some locationMapping =>
      let locationMapping1 : JsonPointer :=
        if insertionPtr then
          { locationMapping with valueEnd := locationMapping.value }
        else locationMapping
      let state1 : List (String × JsonMapping) :=
        if insertionPtr then
          updateAt state sarifUriKey (fun m =>
            { m with pointers := updateAt m.pointers resultPath (fun q =>
                { q with valueEnd := q.value }) })
        else state
      (Except.ok (some
        { id := none,
          uri := some sarifUriKey,
          uriBase := none,
          mapped := false,
          range :=
            ⟨(locationMapping1.value.line : Int),
              (locationMapping1.value.column : Int),
              (locationMapping1.valueEnd.line : Int),
              (locationMapping1.valueEnd.column : Int)⟩,
          endOfLine := some false,
          fileName := some (fileNameFromFsPath sarifUriKey),
          message := none }), state1)

/-- `LocationFactory.mapToSarifFileResult`: a location at the top of the
result object in the SARIF file, via `createLocationOfMapping` with the
`insertionPtr` flag set. -/
def mapToSarifFileResult (state : List (String × JsonMapping))
    (sarifUriKey : String) (runIndex resultIndex : Nat) :
    Except String (Option Location) × List (String × JsonMapping) :=
  createLocationOfMapping state sarifUriKey
    ("/runs/" ++ toString runIndex ++ "/results/" ++ toString resultIndex) true

/-- `LocationFactory.mapToSarifFileLocation`: a location at the result's
first physical location (or its `analysisTarget`, or the result object
itself) in the SARIF file.  An out-of-range run index returns `undefined`;
an out-of-range result index makes the source read `result.locations` of
`undefined`. -/
def mapToSarifFileLocation (state : List (String × JsonMapping))
    (sarifUriKey : String) (runIndex resultIndex : Nat) :
    Except String (Option Location) × List (String × JsonMapping) :=
  match mapGet state sarifUriKey with
  | none => (Except.ok none, state)
  | some sarifMapping =>
    match sarifMapping.data.runs[runIndex]? with
    | none => (Except.ok none, state)
    | some sarifRun =>
      match sarifRun.results with
      | none => (Except.ok none, state)
      | some results =>
        match results[resultIndex]? with
        | none =>
          (Except.error "TypeError: cannot read locations of undefined", state)
        | some result =>
          let basePath : String :=
            "/runs/" ++ toString runIndex ++ "/results/" ++ toString resultIndex
          let resultPath : String :=
            match result.locations with
            | some (location0 :: _) =>
              match location0.physicalLocation with
              | some _ => basePath ++ "/locations/0/physicalLocation"
              | none =>
                match result.analysisTarget with
                | some _ => basePath ++ "/analysisTarget"
                | none => basePath
            | _ =>
              match result.analysisTarget with
              | some _ => basePath ++ "/analysisTarget"
              | none => basePath
          createLocationOfMapping state sarifUriKey resultPath false

/-- One public operation of the Location Factory against the pointer-table
state. -/
inductive LocationFactoryOp where
  | ofMapping (sarifUriKey resultPath : String) (insertionPtr : Bool)
  | toSarifFileLocation (sarifUriKey : String) (runIndex resultIndex : Nat)
  | toSarifFileResult (sarifUriKey : String) (runIndex resultIndex : Nat)

/-- The pointer-table state after one Location Factory operation. -/
def applyLocationOp (state : List (String × JsonMapping)) :
    LocationFactoryOp → List (String × JsonMapping)
  | LocationFactoryOp.ofMapping k p b => (createLocationOfMapping state k p b).2
  | LocationFactoryOp.toSarifFileLocation k i j =>
    (mapToSarifFileLocation state k i j).2
  | LocationFactoryOp.toSarifFileResult k i j =>
    (mapToSarifFileResult state k i j).2

/-- The pointer-table state after a sequence of Location Factory
operations. -/
def applyLocationOps (state : List (String × JsonMapping)) :
    List LocationFactoryOp → List (String × JsonMapping)
  | [] => state
  | op :: rest => applyLocationOps (applyLocationOp state op) rest

end LocationFactory

/-- How one pointer-table entry may evolve: its `value` span is unchanged,
and its `valueEnd` span is either unchanged or collapsed onto the `value`
span (the `insertionPtr` overwrite). -/
def PointerPreserved (p0 p1 : JsonPointer) : Prop :=
  p1.value = p0.value ∧ (p1.valueEnd = p0.valueEnd ∨ p1.valueEnd = p0.value)

/-- How the whole `sarifJSONMapping` state may evolve: the set of mapped
URIs is unchanged, each mapping's data tree is unchanged, each pointer
table's set of paths is unchanged, and each entry evolves per
`PointerPreserved`. -/
def PointerTableEvolution (s0 s1 : List (String × JsonMapping)) : Prop :=
  ∀ uriKey : String,
    (mapGet s1 uriKey = none ↔ mapGet s0 uriKey = none) ∧
    ∀ m0 m1 : JsonMapping,
      mapGet s0 uriKey = some m0 → mapGet s1 uriKey = some m1 →
      m1.data = m0.data ∧
      ∀ path : String,
        (mapGet m1.pointers path = none ↔ mapGet m0.pointers path = none) ∧
        ∀ p0 p1 : JsonPointer,
          mapGet m0.pointers path = some p0 →
          mapGet m1.pointers path = some p1 →
          PointerPreserved p0 p1

/-- A one-document pointer-table fixture whose single entry has distinct
`value` and `valueEnd` spans recorded at parse time. -/
def samplePointerTableState : List (String × JsonMapping) :=
  [("file:///log.sarif",
    { data := { runs := [] },
      pointers :=
        [("/runs/0/results/0",
          { value := { line := 1, column := 2 },
            valueEnd := { line := 3, column := 4 } })] })]

end SarifModel

open SarifModel

/-- Claim C1 (code bug): the spec and the map `sarifLevelToVsCodeSeverityMap`
both intend SARIF level "error" to translate to `DiagnosticSeverity.Error`,
but `getSeverity` computes `map.get(level) || DiagnosticSeverity.Warning`
and the enum value `DiagnosticSeverity.Error = 0` is falsy in JavaScript, so
the map's "error" entry is dead and the function returns `Warning` for
"error".  The other rows of the fixed lookup behave as the claim states. -/
theorem getSeverity_error_level_returns_warning :
    SVDiagnosticFactory.getSeverity "error" = DiagnosticSeverity.Warning ∧
    SVDiagnosticFactory.getSeverity "warning" = DiagnosticSeverity.Warning ∧
    SVDiagnosticFactory.getSeverity "note" = DiagnosticSeverity.Information ∧
    SVDiagnosticFactory.getSeverity "none" = DiagnosticSeverity.Information ∧
    SVDiagnosticFactory.getSeverity "unrecognized" = DiagnosticSeverity.Warning := by
  refine ⟨rfl, rfl, rfl, rfl, rfl⟩

/-- Claim C7: for a line-based region with a `startLine` but no explicit
`endColumn` and no snippet, `parseRange` falls into the end-of-line branch:
the resulting `endLine` is the given 1-based `endLine` (or `startLine`)
converted to 0-based and then incremented, `endColumn` is `0`, and the
`endOfLine` flag is set. -/
theorem parseRange_no_end_info (base64DecodedLength : String → Int)
    (r : SarifRegion) (s : Int) (hstart : r.startLine = some s)
    (hend : r.endColumn = none) (hsnip : r.snippet = none) :
    LocationFactory.parseRange base64DecodedLength (some r) =
      ⟨⟨s - 1, r.startColumn.getD 1 - 1, r.endLine.getD s, 0⟩, true⟩ := by
  obtain ⟨sl, sc, el, ec, co, cl, sn⟩ := r
  simp only at hstart hend hsnip
  subst hstart hend hsnip
  cases sc <;> cases el <;>
    simp [LocationFactory.parseRange, Id.run]

/-- Witness for claim C7: the region `{startLine: 5}` parses to the range
`(4,0)-(5,0)` with `endOfLine = true`. -/
theorem parseRange_no_end_info_witness :
    LocationFactory.parseRange (fun _ => 0)
      (some ⟨some 5, none, none, none, none, none, none⟩) =
      ⟨⟨4, 0, 5, 0⟩, true⟩ := by
  simpa using parseRange_no_end_info (fun _ => 0)
    ⟨some 5, none, none, none, none, none, none⟩ 5 rfl rfl rfl

/-- Claim C5 (code bug): `expandBaseId` has no cycle guard, so on the
self-referential dictionary `{"A": {"uriBaseId": "A"}}` the recursion never
completes no matter how much recursion depth is allowed — the expansion of
"A" first requires the expansion of "A".  `expandBaseIds` therefore recurses
without bound (a stack overflow at runtime) instead of reporting
unresolvable depth as an error. -/
theorem expandBaseIds_diverges_on_self_reference :
    ∀ fuel : Nat,
      Utilities.expandBaseIds fuel (some Utilities.selfReferentialBaseIds) = none := by
  have h1 : mapGet [("A", ({ uri := none, uriBaseId := some "A" } : SarifArtifactLocation))] "A" =
      some { uri := none, uriBaseId := some "A" } := rfl
  have key : ∀ fuel : Nat,
      Utilities.expandBaseId fuel
        [("A", ({ uri := none, uriBaseId := some "A" } : SarifArtifactLocation))] "A" = none := by
    intro fuel
    induction fuel with
    | zero => rfl
    | succ n ih => simp only [Utilities.expandBaseId, h1, ih]
  intro fuel
  have h2 : Utilities.expandBaseIdsGo fuel Utilities.selfReferentialBaseIds
      Utilities.selfReferentialBaseIds = none := by
    conv_lhs => rw [show Utilities.selfReferentialBaseIds =
      [("A", { uri := none, uriBaseId := some "A" })] from rfl]
    simp only [Utilities.expandBaseIdsGo, key fuel]
  simp only [Utilities.expandBaseIds, h2]

theorem digitChar_isDigit (d : Nat) : (digitChar d).isDigit = true := by
  unfold digitChar
  split <;> decide

theorem digitChar_val (d : Nat) (h : d < 10) :
    (digitChar d).toNat - Char.toNat '0' = d := by
  interval_cases d <;> rfl

theorem natToDec_ne_nil (n : Nat) : natToDec n ≠ [] := by
  rw [natToDec]
  split <;> simp

theorem natToDec_digits (n : Nat) : ∀ c ∈ natToDec n, c.isDigit = true := by
  induction n using Nat.strong_induction_on with
  | _ n ih =>
    rw [natToDec]
    split
    · intro c hc
      rw [List.mem_singleton] at hc
      exact hc ▸ digitChar_isDigit n
    · intro c hc
      rw [List.mem_append, List.mem_singleton] at hc
      rcases hc with hc | rfl
      · exact ih (n / 10) (Nat.div_lt_self (by omega) (by omega)) c hc
      · exact digitChar_isDigit (n % 10)

theorem digitsToNat_append_digit (xs : List Char) (c : Char) :
    digitsToNat (xs ++ [c]) = digitsToNat xs * 10 + (c.toNat - Char.toNat '0') := by
  simp [digitsToNat, List.foldl_append]

theorem digitsToNat_natToDec (n : Nat) : digitsToNat (natToDec n) = n := by
  induction n using Nat.strong_induction_on with
  | _ n ih =>
    rw [natToDec]
    split
    · rename_i h
      simp only [digitsToNat, List.foldl_cons, List.foldl_nil, Nat.zero_mul,
        Nat.zero_add]
      exact digitChar_val n h
    · rename_i h
      rw [digitsToNat_append_digit,
        ih (n / 10) (Nat.div_lt_self (by omega) (by omega)),
        digitChar_val (n % 10) (Nat.mod_lt n (by omega))]
      omega

theorem isDigit_not_ws (c : Char) (h : c.isDigit = true) :
    jsWhitespace c = false := by
  by_contra hw
  rw [Bool.not_eq_false] at hw
  simp only [jsWhitespace, Bool.or_eq_true, beq_iff_eq] at hw
  have hcases : c = ' ' ∨ c = '\t' ∨ c = '\n' ∨ c = '\r' := by tauto
  rcases hcases with rfl | rfl | rfl | rfl <;> revert h <;> decide

theorem isDigit_ne_minus (c : Char) (h : c.isDigit = true) : c ≠ '-' := by
  intro he
  rw [he] at h
  exact absurd h (by decide)

theorem isDigit_ne_plus (c : Char) (h : c.isDigit = true) : c ≠ '+' := by
  intro he
  rw [he] at h
  exact absurd h (by decide)

theorem isDigit_ne_underscore (c : Char) (h : c.isDigit = true) : c ≠ '_' := by
  intro he
  rw [he] at h
  exact absurd h (by decide)

theorem takeWhile_of_all {p : Char → Bool} :
    ∀ s : List Char, (∀ c ∈ s, p c = true) → s.takeWhile p = s := by
  intro s h
  induction s with
  | nil => rfl
  | cons a as ihs =>
    rw [List.takeWhile_cons, h a (List.mem_cons_self a as),
      ihs (fun c hc => h c (List.mem_cons_of_mem a hc))]
    simp

theorem jsParseInt_all_digits (s : List Char) (hne : s ≠ [])
    (hall : ∀ c ∈ s, c.isDigit = true) :
    jsParseInt s = some ((digitsToNat s : Int)) := by
  match s, hne with
  | a :: as, _ =>
    have ha : a.isDigit = true := hall a (List.mem_cons_self a as)
    rw [jsParseInt, List.dropWhile_cons, isDigit_not_ws a ha]
    simp only [Bool.false_eq_true, if_false]
    rw [if_neg (isDigit_ne_minus a ha), if_neg (isDigit_ne_plus a ha),
      parseDigits]
    simp only [takeWhile_of_all (a :: as) hall]
    simp

theorem jsParseInt_natToDec (n : Nat) :
    jsParseInt (natToDec n) = some (n : Int) := by
  rw [jsParseInt_all_digits (natToDec n) (natToDec_ne_nil n) (natToDec_digits n),
    digitsToNat_natToDec]

theorem underscore_not_mem_natToDec (n : Nat) : '_' ∉ natToDec n := by
  intro hm
  exact absurd rfl (isDigit_ne_underscore '_' (natToDec_digits n '_' hm))

theorem splitOnChar_of_not_mem (sep : Char) :
    ∀ s : List Char, sep ∉ s → splitOnChar sep s = [s] := by
  intro s h
  induction s with
  | nil => rfl
  | cons a as ihs =>
    rw [List.mem_cons, not_or] at h
    rw [splitOnChar]
    simp only [if_neg (Ne.symm h.1), ihs h.2]

theorem splitOnChar_append (sep : Char) (rest : List Char) :
    ∀ s : List Char, sep ∉ s →
    splitOnChar sep (s ++ sep :: rest) = s :: splitOnChar sep rest := by
  intro s h
  induction s with
  | nil =>
    rw [List.nil_append, splitOnChar, if_pos rfl]
  | cons a as ihs =>
    rw [List.mem_cons, not_or] at h
    rw [List.cons_append, splitOnChar]
    simp only [if_neg (Ne.symm h.1), ihs h.2]

/-- Claim C9: `parseCodeFlowId` inverts the traversal-id format.  For all
naturals `a`, `b`, `c` the text `a_b_c` parses to the step id with
`cFId = a`, `tFId = b`, `stepId = c`; the placeholder `-1` parses to
`undefined`; and any text that does not split on `_` into exactly three
segments parses to `undefined`. -/
theorem parseCodeFlowId_roundtrip :
    (∀ a b c : Nat,
      CodeFlowFactory.parseCodeFlowId
        (natToDec a ++ '_' :: (natToDec b ++ '_' :: natToDec c)) =
        some ⟨some (a : Int), some (b : Int), some (c : Int)⟩) ∧
    CodeFlowFactory.parseCodeFlowId ['-', '1'] = none ∧
    (∀ s : List Char, (splitOnChar '_' s).length ≠ 3 →
      CodeFlowFactory.parseCodeFlowId s = none) := by
  refine ⟨?_, ?_, ?_⟩
  · intro a b c
    have hsplit :
        splitOnChar '_' (natToDec a ++ '_' :: (natToDec b ++ '_' :: natToDec c)) =
        [natToDec a, natToDec b, natToDec c] := by
      rw [splitOnChar_append '_' _ (natToDec a) (underscore_not_mem_natToDec a),
        splitOnChar_append '_' _ (natToDec b) (underscore_not_mem_natToDec b),
        splitOnChar_of_not_mem '_' (natToDec c) (underscore_not_mem_natToDec c)]
    have hne :
        (natToDec a ++ '_' :: (natToDec b ++ '_' :: natToDec c)) ≠ ['-', '1'] := by
      intro he
      obtain ⟨d, ds, hd⟩ := List.exists_cons_of_ne_nil (natToDec_ne_nil a)
      have hdig : d.isDigit = true :=
        natToDec_digits a d (hd ▸ List.mem_cons_self d ds)
      rw [hd, List.cons_append] at he
      exact isDigit_ne_minus d hdig (List.cons_eq_cons.mp he).1
    rw [CodeFlowFactory.parseCodeFlowId, if_neg hne, hsplit]
    simp only [jsParseInt_natToDec]
  · rfl
  · intro s hlen
    rw [CodeFlowFactory.parseCodeFlowId]
    by_cases hs : s = ['-', '1']
    · rw [if_pos hs]
    · rw [if_neg hs]
      rcases hsp : splitOnChar '_' s with _ | ⟨x, _ | ⟨y, _ | ⟨z, _ | ⟨w, ws⟩⟩⟩⟩
      · rfl
      · rfl
      · rfl
      · simp [hsp] at hlen
      · rfl

/-- Witness for claim C9: the malformed id `2_1` (two segments) parses to
`undefined`. -/
theorem parseCodeFlowId_roundtrip_witness :
    CodeFlowFactory.parseCodeFlowId ['2', '_', '1'] = none :=
  parseCodeFlowId_roundtrip.2.2 ['2', '_', '1'] (by decide)

/-- Counterexample for claim C2: a step whose (resolved) nesting level is
`undefined` followed by a step with nesting level `1` does not get
`isParent = true` — the tie-break disjunct sits inside the guard requiring
both nesting levels to be defined, so neither flag is set. -/
theorem createCodeFlowStep_undefined_vs_defined_not_parent :
    (CodeFlowFactory.createCodeFlowStep
      ⟨fun _ => ⟨none, none, none, false, ⟨0, 0, 0, 1⟩, none, none, none⟩,
        fun _ => ⟨none, none⟩, ""⟩
      [] 0
      ⟨none, none, none, none, none⟩
      (some ⟨none, some 1, none, none, none⟩)
      "0_0_0" 1).isParent = false := by
  rfl

/-- Claim C2 (amended): `createCodeFlowStep` only ever sets
`isParent`/`isLastChild` when both the current and the next step's resolved
nesting levels are defined — the "undefined versus defined" disjuncts of the
comparison are unreachable under the enclosing both-defined guard, so when
either side is `undefined` neither flag is set; when both are defined,
`isParent` is exactly "current < next" and `isLastChild` exactly
"current > next". -/
theorem createCodeFlowStep_flag_spec (env : CodeFlowEnv)
    (tflMap : List (String × SarifThreadFlowLocation)) (runId : Nat)
    (tfl nxt : SarifThreadFlowLocation) (indexId : String) (stepNumber : Nat) :
    (((CodeFlowFactory.resolveTFLoc tflMap runId tfl).nestingLevel = none ∨
        (CodeFlowFactory.resolveTFLoc tflMap runId nxt).nestingLevel = none) →
      (CodeFlowFactory.createCodeFlowStep env tflMap runId tfl (some nxt)
          indexId stepNumber).isParent = false ∧
      (CodeFlowFactory.createCodeFlowStep env tflMap runId tfl (some nxt)
          indexId stepNumber).isLastChild = false) ∧
    (∀ a b : Int,
      (CodeFlowFactory.resolveTFLoc tflMap runId tfl).nestingLevel = some a →
      (CodeFlowFactory.resolveTFLoc tflMap runId nxt).nestingLevel = some b →
      (CodeFlowFactory.createCodeFlowStep env tflMap runId tfl (some nxt)
          indexId stepNumber).isParent = decide (a < b) ∧
      (CodeFlowFactory.createCodeFlowStep env tflMap runId tfl (some nxt)
          indexId stepNumber).isLastChild = decide (b < a)) := by
  constructor
  · rintro (ht | ht) <;>
      simp [CodeFlowFactory.createCodeFlowStep, ht, jsLtNum, jsGtNum]
  · intro a b ha hb
    by_cases hab : a < b <;> by_cases hba : b < a
    · omega
    · simp [CodeFlowFactory.createCodeFlowStep, ha, hb, jsLtNum, jsGtNum,
        hab, hba]
    · simp [CodeFlowFactory.createCodeFlowStep, ha, hb, jsLtNum, jsGtNum,
        hab, hba]
    · simp [CodeFlowFactory.createCodeFlowStep, ha, hb, jsLtNum, jsGtNum,
        hab, hba]

/-- Witness for claim C2 (amended): with an undefined current nesting level
and a defined next one, the concrete step of the counterexample gets neither
flag. -/
theorem createCodeFlowStep_flag_spec_witness :
    (CodeFlowFactory.createCodeFlowStep
      ⟨fun _ => ⟨none, none, none, false, ⟨0, 0, 0, 1⟩, none, none, none⟩,
        fun _ => ⟨none, none⟩, ""⟩
      [] 0
      ⟨none, some 2, none, none, none⟩
      (some ⟨none, none, none, none, none⟩)
      "0_0_1" 2).isParent = false ∧
    (CodeFlowFactory.createCodeFlowStep
      ⟨fun _ => ⟨none, none, none, false, ⟨0, 0, 0, 1⟩, none, none, none⟩,
        fun _ => ⟨none, none⟩, ""⟩
      [] 0
      ⟨none, some 2, none, none, none⟩
      (some ⟨none, none, none, none, none⟩)
      "0_0_1" 2).isLastChild = false :=
  (createCodeFlowStep_flag_spec
    ⟨fun _ => ⟨none, none, none, false, ⟨0, 0, 0, 1⟩, none, none, none⟩,
      fun _ => ⟨none, none⟩, ""⟩
    [] 0
    ⟨none, some 2, none, none, none⟩
    ⟨none, none, none, none, none⟩
    "0_0_1" 2).1 (Or.inr rfl)

theorem buildSteps_length (env : CodeFlowEnv)
    (tflMap : List (String × SarifThreadFlowLocation)) (runId : Nat)
    (indexId : String) :
    ∀ (index : Nat) (locs : List SarifThreadFlowLocation),
      (CodeFlowFactory.buildSteps env tflMap runId indexId index locs).length =
        locs.length := by
  intro index locs
  induction locs generalizing index with
  | nil => rfl
  | cons l ls ih =>
    rw [CodeFlowFactory.buildSteps, List.length_cons, List.length_cons, ih]

/-- Claim C10: `createThreadFlow` fails (reads `steps[0]` of an empty steps
array while computing `lvlsFirstStepIsNested`, an `undefined` property
access) exactly when the thread flow's locations array is empty; with at
least one location the error branch is unreachable, because the step loop
pushes one step per location. -/
theorem createThreadFlow_error_iff (env : CodeFlowEnv)
    (tflMap : List (String × SarifThreadFlowLocation)) (runId : Nat)
    (sarifTF : SarifThreadFlow) (indexId : String) :
    (CodeFlowFactory.createThreadFlow env tflMap runId sarifTF indexId =
      Except.error "TypeError: cannot read nestingLevel of undefined") ↔
      sarifTF.locations = [] := by
  rw [CodeFlowFactory.createThreadFlow]
  cases hl : sarifTF.locations with
  | nil => simp [CodeFlowFactory.buildSteps]
  | cons l ls =>
    rw [CodeFlowFactory.buildSteps]
    simp

/-- Counterexample for claim C6: a result with message text "boom" but no
assigned location is rejected by `create`, although the claim's
"fails exactly when the result has neither an assignable range nor message
text" predicts success for it — the source guard is a disjunction, not a
conjunction. -/
theorem create_fails_with_text_but_no_location :
    ¬ ((SVDiagnosticFactory.create ⟨0, none, "file:///log.sarif"⟩
        ⟨0, 0, ⟨0, none, "file:///log.sarif"⟩, none, ⟨some "boom", none⟩,
          "warning", none⟩
        ⟨none, none⟩ =
        Except.error SVDiagnosticFactory.createErrorMessage) ↔
      ((⟨0, 0, ⟨0, none, "file:///log.sarif"⟩, none, ⟨some "boom", none⟩,
          "warning", none⟩ : ResultInfo).assignedLocation = none ∧
        (⟨0, 0, ⟨0, none, "file:///log.sarif"⟩, none, ⟨some "boom", none⟩,
          "warning", none⟩ : ResultInfo).message.text = none)) := by
  intro hiff
  have h2 := hiff.mp rfl
  simp at h2

/-- Claim C6 (amended): `SVDiagnosticFactory.create` fails with an error
exactly when the result lacks an assigned location or lacks non-empty
message text (either one suffices, since the guard is a disjunction and the
empty string is falsy); for every result possessing an assigned location and
non-empty message text, construction succeeds. -/
theorem create_error_iff (runInfo : RunInfo) (resultInfo : ResultInfo)
    (rawResult : SarifResult) :
    (SVDiagnosticFactory.create runInfo resultInfo rawResult =
      Except.error SVDiagnosticFactory.createErrorMessage) ↔
    (resultInfo.assignedLocation = none ∨ resultInfo.message.text = none ∨
      resultInfo.message.text = some "") := by
  rcases hA : resultInfo.assignedLocation with _ | assignedLocation <;>
    rcases hT : resultInfo.message.text with _ | t
  · simp [SVDiagnosticFactory.create, hA, hT]
  · simp [SVDiagnosticFactory.create, hA, hT]
  · simp [SVDiagnosticFactory.create, hA, hT]
  · by_cases ht : t = "" <;> simp [SVDiagnosticFactory.create, hA, hT, ht]

/-- Claim C8: when a file's diagnostics exceed the per-file display cap, the
displayed list is exactly the sentinel summary diagnostic plus the first
`maxCap` diagnostics in insertion order, with exactly `maxCap` real
diagnostics. -/
theorem addToDiagnosticCollection_cap (maxCap : Nat)
    (issues : List SVDiagnostic) (issue0 : SVDiagnostic)
    (rest : List SVDiagnostic) (hcons : issues = issue0 :: rest)
    (assignedLocation : Location)
    (hassigned : issue0.resultInfo.assignedLocation = some assignedLocation)
    (u : String) (huri : assignedLocation.uri = some u)
    (hcap : maxCap < issues.length) :
    SVDiagnosticCollection.addToDiagnosticCollectionEntry maxCap issues =
      Except.ok (some (u,
        SVDiagnosticCollection.maxReachedDiagnostic maxCap issues.length ::
          (issues.take maxCap).map (fun issue => issue.base))) ∧
    ((issues.take maxCap).map (fun issue => issue.base)).length = maxCap := by
  subst hcons
  constructor
  · rw [SVDiagnosticCollection.addToDiagnosticCollectionEntry]
    simp [hassigned, huri, hcap]
    intro hcontra
    exfalso
    simp only [List.length_cons] at hcap
    omega
  · rw [List.length_map, List.length_take]
    omega

/-- Witness for claim C8: six copies of the sample diagnostic under a cap of
one display as the sentinel plus the first diagnostic. -/
theorem addToDiagnosticCollection_cap_witness :
    SVDiagnosticCollection.addToDiagnosticCollectionEntry 1
      (List.replicate 6 sampleDiagnostic) =
      Except.ok (some ("file:///proj/a.c",
        SVDiagnosticCollection.maxReachedDiagnostic 1 6 ::
          [sampleDiagnostic.base])) ∧
    ([sampleDiagnostic.base] : List VsDiagnostic).length = 1 := by
  have h := addToDiagnosticCollection_cap 1 (List.replicate 6 sampleDiagnostic)
    sampleDiagnostic (List.replicate 5 sampleDiagnostic) rfl
    sampleMappedLocation rfl "file:///proj/a.c" rfl (by simp)
  simpa using h

/-- Counterexample for claim C4: after adding runs for `a.sarif` and
`b.sarif` (ids 0 and 1), removing the `b.sarif` run and adding a run for
`c.sarif`, the returned ids are `[0, 1, 1]` — the id `1` of the removed run
is returned again, so the returned ids are not strictly increasing across
the interleaving. -/
theorem runIds_reused_after_removal :
    (SVDiagnosticCollection.applyOps
      [SVDiagnosticCollection.DiagCollectionOp.addRun ⟨0, none, "a.sarif"⟩,
        SVDiagnosticCollection.DiagCollectionOp.addRun ⟨0, none, "b.sarif"⟩,
        SVDiagnosticCollection.DiagCollectionOp.removeRuns "b.sarif",
        SVDiagnosticCollection.DiagCollectionOp.addRun ⟨0, none, "c.sarif"⟩]
      []).1 = [0, 1, 1] ∧
    ¬ List.Pairwise (fun a b => a < b)
      (SVDiagnosticCollection.applyOps
        [SVDiagnosticCollection.DiagCollectionOp.addRun ⟨0, none, "a.sarif"⟩,
          SVDiagnosticCollection.DiagCollectionOp.addRun ⟨0, none, "b.sarif"⟩,
          SVDiagnosticCollection.DiagCollectionOp.removeRuns "b.sarif",
          SVDiagnosticCollection.DiagCollectionOp.addRun ⟨0, none, "c.sarif"⟩]
        []).1 := by
  decide

theorem mem_id_lt_added (state : List RunInfo) (r : RunInfo)
    (h : SVDiagnosticCollection.IdsStrictlyIncreasing state) :
    ∀ runInfo ∈ state,
      runInfo.id < (SVDiagnosticCollection.addRunInfoAndCalculateId state r).1 := by
  induction state with
  | nil => simp
  | cons a as ih =>
    rw [SVDiagnosticCollection.IdsStrictlyIncreasing, List.pairwise_cons] at h
    intro runInfo hmem
    cases as with
    | nil =>
      rw [List.mem_singleton] at hmem
      subst hmem
      simp [SVDiagnosticCollection.addRunInfoAndCalculateId]
    | cons b bs =>
      have hkey :
          (SVDiagnosticCollection.addRunInfoAndCalculateId (a :: b :: bs) r).1 =
          (SVDiagnosticCollection.addRunInfoAndCalculateId (b :: bs) r).1 := by
        simp [SVDiagnosticCollection.addRunInfoAndCalculateId,
          List.getLast?_cons_cons]
      rw [hkey]
      rcases List.mem_cons.mp hmem with rfl | hmem2
      · have hb := ih h.2 b (List.mem_cons_self b bs)
        have hab := h.1 b (List.mem_cons_self b bs)
        omega
      · exact ih h.2 runInfo hmem2

theorem added_run_sorted (state : List RunInfo) (r : RunInfo)
    (h : SVDiagnosticCollection.IdsStrictlyIncreasing state) :
    SVDiagnosticCollection.IdsStrictlyIncreasing
      (SVDiagnosticCollection.addRunInfoAndCalculateId state r).2 := by
  have hlt := mem_id_lt_added state r h
  rw [SVDiagnosticCollection.IdsStrictlyIncreasing]
  rw [show (SVDiagnosticCollection.addRunInfoAndCalculateId state r).2 =
    state ++ [{ r with id :=
      (SVDiagnosticCollection.addRunInfoAndCalculateId state r).1 }] from rfl]
  rw [List.pairwise_append]
  refine ⟨h, List.pairwise_singleton _ _, ?_⟩
  intro x hx y hy
  rw [List.mem_singleton] at hy
  subst hy
  exact hlt x hx

theorem removeRuns_sorted (state : List RunInfo) (p : String)
    (h : SVDiagnosticCollection.IdsStrictlyIncreasing state) :
    SVDiagnosticCollection.IdsStrictlyIncreasing
      (SVDiagnosticCollection.removeRuns state p) :=
  h.sublist (List.filter_sublist state)

/-- Claim C4 (amended): starting from a collection whose run ids are
strictly increasing, every id returned by `addRunInfoAndCalculateId` is
strictly greater than the id of every run present in the collection at the
time of that call, and the collection's ids stay strictly increasing across
any interleaving of adds and removals.  Ids of runs that were removed may
however be returned again (see the counterexample), because the next id is
computed from the last run still present. -/
theorem addRun_ids_exceed_current (ops : List SVDiagnosticCollection.DiagCollectionOp)
    (state : List RunInfo)
    (h : SVDiagnosticCollection.IdsStrictlyIncreasing state) :
    SVDiagnosticCollection.AddsExceedCurrentIds ops state ∧
      SVDiagnosticCollection.IdsStrictlyIncreasing
        (SVDiagnosticCollection.applyOps ops state).2 := by
  induction ops generalizing state with
  | nil => exact ⟨trivial, h⟩
  | cons op rest ih =>
    cases op with
    | addRun r =>
      have h1 := mem_id_lt_added state r h
      have h2 := added_run_sorted state r h
      have h3 := ih _ h2
      exact ⟨⟨h1, h3.1⟩, h3.2⟩
    | removeRuns p =>
      have h2 := removeRuns_sorted state p h
      have h3 := ih _ h2
      exact ⟨h3.1, h3.2⟩

/-- Witness for claim C4 (amended): the counterexample's operation sequence,
started from the empty collection. -/
theorem addRun_ids_exceed_current_witness :
    SVDiagnosticCollection.AddsExceedCurrentIds
      [SVDiagnosticCollection.DiagCollectionOp.addRun ⟨0, none, "a.sarif"⟩,
        SVDiagnosticCollection.DiagCollectionOp.addRun ⟨0, none, "b.sarif"⟩,
        SVDiagnosticCollection.DiagCollectionOp.removeRuns "b.sarif",
        SVDiagnosticCollection.DiagCollectionOp.addRun ⟨0, none, "c.sarif"⟩]
      [] ∧
    SVDiagnosticCollection.IdsStrictlyIncreasing
      (SVDiagnosticCollection.applyOps
        [SVDiagnosticCollection.DiagCollectionOp.addRun ⟨0, none, "a.sarif"⟩,
          SVDiagnosticCollection.DiagCollectionOp.addRun ⟨0, none, "b.sarif"⟩,
          SVDiagnosticCollection.DiagCollectionOp.removeRuns "b.sarif",
          SVDiagnosticCollection.DiagCollectionOp.addRun ⟨0, none, "c.sarif"⟩]
        []).2 :=
  addRun_ids_exceed_current
    [SVDiagnosticCollection.DiagCollectionOp.addRun ⟨0, none, "a.sarif"⟩,
      SVDiagnosticCollection.DiagCollectionOp.addRun ⟨0, none, "b.sarif"⟩,
      SVDiagnosticCollection.DiagCollectionOp.removeRuns "b.sarif",
      SVDiagnosticCollection.DiagCollectionOp.addRun ⟨0, none, "c.sarif"⟩]
    [] List.Pairwise.nil

theorem mapGet_updateAt_self {α : Type} (m : List (String × α)) (key : String)
    (g : α → α) : mapGet (updateAt m key g) key = (mapGet m key).map g := by
  induction m with
  | nil => rfl
  | cons kv rest ih =>
    by_cases h1 : kv.1 = key
    · rw [updateAt, List.map_cons, if_pos h1, mapGet, mapGet,
        List.find?_cons_of_pos _ (by simpa using h1),
        List.find?_cons_of_pos _ (by simpa using h1)]
      rfl
    · rw [updateAt, List.map_cons, if_neg h1, mapGet, mapGet,
        List.find?_cons_of_neg _ (by simpa using h1),
        List.find?_cons_of_neg _ (by simpa using h1)]
      exact ih

theorem mapGet_updateAt_other {α : Type} (m : List (String × α)) (key : String)
    (g : α → α) (k : String) (hk : k ≠ key) :
    mapGet (updateAt m key g) k = mapGet m k := by
  induction m with
  | nil => rfl
  | cons kv rest ih =>
    by_cases h2 : kv.1 = k
    · have h1 : ¬kv.1 = key := by rw [h2]; exact hk
      rw [updateAt, List.map_cons, if_neg h1, mapGet, mapGet,
        List.find?_cons_of_pos _ (by simpa using h2),
        List.find?_cons_of_pos _ (by simpa using h2)]
    · by_cases h1 : kv.1 = key
      · rw [updateAt, List.map_cons, if_pos h1, mapGet, mapGet,
          List.find?_cons_of_neg _ (by simpa using h2),
          List.find?_cons_of_neg _ (by simpa using h2)]
        exact ih
      · rw [updateAt, List.map_cons, if_neg h1, mapGet, mapGet,
          List.find?_cons_of_neg _ (by simpa using h2),
          List.find?_cons_of_neg _ (by simpa using h2)]
        exact ih

theorem pointerTableEvolution_refl (s : List (String × JsonMapping)) :
    PointerTableEvolution s s := by
  intro uriKey
  refine ⟨Iff.rfl, ?_⟩
  intro m0 m1 h0 h1
  rw [h0] at h1
  injection h1 with h
  subst h
  refine ⟨rfl, ?_⟩
  intro path
  refine ⟨Iff.rfl, ?_⟩
  intro p0 p1 q0 q1
  rw [q0] at q1
  injection q1 with h2
  subst h2
  exact ⟨rfl, Or.inl rfl⟩

theorem pointerTableEvolution_of_eq (s0 s1 : List (String × JsonMapping))
    (h : s1 = s0) : PointerTableEvolution s0 s1 := by
  subst h
  exact pointerTableEvolution_refl _

theorem pointerTableEvolution_trans {s0 s1 s2 : List (String × JsonMapping)}
    (a : PointerTableEvolution s0 s1) (b : PointerTableEvolution s1 s2) :
    PointerTableEvolution s0 s2 := by
  intro uriKey
  obtain ⟨an, af⟩ := a uriKey
  obtain ⟨bn, bf⟩ := b uriKey
  refine ⟨bn.trans an, ?_⟩
  intro m0 m2 h0 h2
  have hs1 : ∃ m1, mapGet s1 uriKey = some m1 := by
    cases hk : mapGet s1 uriKey with
    | none => exact absurd (an.mp hk) (by simp [h0])
    | some m1 => exact ⟨m1, rfl⟩
  obtain ⟨m1, h1⟩ := hs1
  obtain ⟨adata, apaths⟩ := af m0 m1 h0 h1
  obtain ⟨bdata, bpaths⟩ := bf m1 m2 h1 h2
  refine ⟨bdata.trans adata, ?_⟩
  intro path
  obtain ⟨apn, apf⟩ := apaths path
  obtain ⟨bpn, bpf⟩ := bpaths path
  refine ⟨bpn.trans apn, ?_⟩
  intro p0 p2 q0 q2
  have hq1 : ∃ p1, mapGet m1.pointers path = some p1 := by
    cases hk : mapGet m1.pointers path with
    | none => exact absurd (apn.mp hk) (by simp [q0])
    | some p1 => exact ⟨p1, rfl⟩
  obtain ⟨p1, q1⟩ := hq1
  have ha := apf p0 p1 q0 q1
  have hb := bpf p1 p2 q1 q2
  refine ⟨hb.1.trans ha.1, ?_⟩
  rcases hb.2 with h | h
  · rcases ha.2 with h2 | h2
    · exact Or.inl (h.trans h2)
    · exact Or.inr (h.trans h2)
  · exact Or.inr (h.trans ha.1)

theorem createLocationOfMapping_state_of_not_insertion
    (state : List (String × JsonMapping)) (k p : String) :
    (LocationFactory.createLocationOfMapping state k p false).2 = state := by
  rcases h1 : mapGet state k with _ | m
  · simp [LocationFactory.createLocationOfMapping, h1]
  · rcases h2 : mapGet m.pointers p with _ | q <;>
      simp [LocationFactory.createLocationOfMapping, h1, h2]

theorem createLocationOfMapping_evolution
    (state : List (String × JsonMapping)) (k p : String) (b : Bool) :
    PointerTableEvolution state
      (LocationFactory.createLocationOfMapping state k p b).2 := by
  rcases h1 : mapGet state k with _ | m
  · exact pointerTableEvolution_of_eq _ _
      (by simp [LocationFactory.createLocationOfMapping, h1])
  · rcases h2 : mapGet m.pointers p with _ | q
    · exact pointerTableEvolution_of_eq _ _
        (by simp [LocationFactory.createLocationOfMapping, h1, h2])
    · cases b with
      | false =>
        exact pointerTableEvolution_of_eq _ _
          (createLocationOfMapping_state_of_not_insertion state k p)
      | true =>
        have hstate : (LocationFactory.createLocationOfMapping state k p true).2 =
            updateAt state k (fun m1 =>
              { m1 with pointers := updateAt m1.pointers p (fun q1 =>
                  { q1 with valueEnd := q1.value }) }) := by
          simp [LocationFactory.createLocationOfMapping, h1, h2]
        rw [hstate]
        intro uriKey
        by_cases hu : uriKey = k
        · subst hu
          rw [mapGet_updateAt_self]
          refine ⟨by simp, ?_⟩
          intro m0 m1 hm0 hm1
          rw [hm0] at hm1
          have hm1e : ({ data := m0.data, pointers := updateAt m0.pointers p (fun q1 => { value := q1.value, valueEnd := q1.value }) } : JsonMapping) = m1 := by
            simpa using hm1
          subst hm1e
          dsimp only
          refine ⟨rfl, ?_⟩
          intro path
          by_cases hp : path = p
          · subst hp
            rw [mapGet_updateAt_self]
            refine ⟨by simp, ?_⟩
            intro p0 p1 hp0 hp1
            rw [hp0] at hp1
            have hp1e : ({ value := p0.value, valueEnd := p0.value } : JsonPointer) = p1 := by
              simpa using hp1
            subst hp1e
            exact ⟨rfl, Or.inr rfl⟩
          · rw [mapGet_updateAt_other _ _ _ _ hp]
            refine ⟨Iff.rfl, ?_⟩
            intro p0 p1 hp0 hp1
            rw [hp0] at hp1
            injection hp1 with hp1e
            subst hp1e
            exact ⟨rfl, Or.inl rfl⟩
        · rw [mapGet_updateAt_other _ _ _ _ hu]
          refine ⟨Iff.rfl, ?_⟩
          intro m0 m1 hm0 hm1
          rw [hm0] at hm1
          injection hm1 with hm1e
          subst hm1e
          refine ⟨rfl, ?_⟩
          intro path
          refine ⟨Iff.rfl, ?_⟩
          intro p0 p1 hp0 hp1
          rw [hp0] at hp1
          injection hp1 with hp1e
          subst hp1e
          exact ⟨rfl, Or.inl rfl⟩

theorem mapToSarifFileLocation_state (state : List (String × JsonMapping))
    (k : String) (i j : Nat) :
    (LocationFactory.mapToSarifFileLocation state k i j).2 = state := by
  rcases h1 : mapGet state k with _ | m
  · simp [LocationFactory.mapToSarifFileLocation, h1]
  · rcases h2 : m.data.runs[i]? with _ | run
    · simp [LocationFactory.mapToSarifFileLocation, h1, h2]
    · rcases h3 : run.results with _ | results
      · simp [LocationFactory.mapToSarifFileLocation, h1, h2, h3]
      · rcases h4 : results[j]? with _ | result
        · simp [LocationFactory.mapToSarifFileLocation, h1, h2, h3, h4]
        · simp [LocationFactory.mapToSarifFileLocation, h1, h2, h3, h4,
            createLocationOfMapping_state_of_not_insertion]

theorem applyLocationOp_evolution (state : List (String × JsonMapping))
    (op : LocationFactory.LocationFactoryOp) :
    PointerTableEvolution state (LocationFactory.applyLocationOp state op) := by
  cases op with
  | ofMapping k p b => exact createLocationOfMapping_evolution state k p b
  | toSarifFileLocation k i j =>
    exact pointerTableEvolution_of_eq _ _ (mapToSarifFileLocation_state state k i j)
  | toSarifFileResult k i j => exact createLocationOfMapping_evolution state k _ true

/-- Claim C3 (amended): across every sequence of Location Factory operations
the pointer table keeps its keys, its parsed data trees and every entry's
`value` span; an entry's `valueEnd` span is either the one recorded at parse
time or — after `createLocationOfMapping` ran with the `insertionPtr` flag
on that entry, as `mapToSarifFileResult` does — overwritten with the entry's
own `value` span.  The parse-time `valueEnd` spans are NOT always kept: the
`insertionPtr` collapse is a mutation of the stored table entry. -/
theorem pointerTable_evolution_under_ops
    (ops : List LocationFactory.LocationFactoryOp)
    (state : List (String × JsonMapping)) :
    PointerTableEvolution state (LocationFactory.applyLocationOps state ops) := by
  induction ops generalizing state with
  | nil => exact pointerTableEvolution_refl state
  | cons op rest ih =>
    exact pointerTableEvolution_trans (applyLocationOp_evolution state op)
      (ih (LocationFactory.applyLocationOp state op))

/-- Counterexample for claim C3: on the sample pointer table, whose entry
for `/runs/0/results/0` records `value = (1,2)` and `valueEnd = (3,4)` at
parse time, one `mapToSarifFileResult` call overwrites the stored entry's
`valueEnd` with `(1,2)` — the entry does not keep the `valueEnd` span
recorded at parse time. -/
theorem pointerTable_mutated_by_insertionPtr :
    ((mapGet samplePointerTableState "file:///log.sarif").map
      (fun m => mapGet m.pointers "/runs/0/results/0")) =
      some (some ⟨⟨1, 2⟩, ⟨3, 4⟩⟩) ∧
    ((mapGet (LocationFactory.mapToSarifFileResult samplePointerTableState
        "file:///log.sarif" 0 0).2 "file:///log.sarif").map
      (fun m => mapGet m.pointers "/runs/0/results/0")) =
      some (some ⟨⟨1, 2⟩, ⟨1, 2⟩⟩) ∧
    (⟨⟨1, 2⟩, ⟨1, 2⟩⟩ : JsonPointer) ≠ ⟨⟨1, 2⟩, ⟨3, 4⟩⟩ := by
  refine ⟨rfl, rfl, by decide⟩
